import Mathlib

/-!
Verification of the schema-driven file ingestion engine
(`src/modules/datafilehandler.py`, class `DataFileReader`).

Strings are modelled as Lean `String`/`List Char`; machine floats produced by
`pandas.to_numeric` are modelled as exact rationals (`ℚ`, built with `mkRat`
so that values compute); pandas data frames are modelled as ordered
association lists of named columns plus a row count.  Python functions of the
source are translated definition by definition below; the behaviour of the
external libraries the source calls (`pandas`, `unicodedata`, `fnmatch`,
`pathlib`) is modelled for the character sets and value shapes the engine
feeds them, as noted in the individual doc comments.

Definitions come first, then all theorems.
-/

set_option maxHeartbeats 1000000

namespace DFR

/-! ## Character and string helpers -/

/-- Characters stripped by Python `str.strip()` with no arguments.  Modelled
for ASCII whitespace and the no-break space; more exotic Unicode whitespace
accepted by Python does not occur in the engine's inputs of interest. -/
def pyIsSpace (c : Char) : Bool :=
  c == ' ' || c == '\t' || c == '\n' || c == '\r' || c == '\x0b' ||
    c == '\x0c' || c == ' '

/-- Helper that removes a matching suffix, mirroring the right half of
Python `str.strip`. -/
def dropTrailingWhile (p : Char → Bool) (l : List Char) : List Char :=
  (l.reverse.dropWhile p).reverse

/-- Python `s.strip()` on the character list of `s`. -/
def pyStrip (l : List Char) : List Char :=
  dropTrailingWhile pyIsSpace (l.dropWhile pyIsSpace)

/-- Python `s.strip()` as a `String` function. -/
def pyStripStr (s : String) : String :=
  String.mk (pyStrip s.toList)

/-- Python `str.isalnum` restricted to ASCII.  The call sites below only ever
receive ASCII characters (they run after the ASCII-fold step), so the ASCII
ranges are a faithful model there. -/
def pyIsAlnum (c : Char) : Bool :=
  (97 ≤ c.toNat && c.toNat ≤ 122) ||
    (65 ≤ c.toNat && c.toNat ≤ 90) ||
    (48 ≤ c.toNat && c.toNat ≤ 57)

/-- Lower-case ASCII letters paired with their upper-case form. -/
def asciiUpperPairs : List (Char × Char) :=
  [('a', 'A'), ('b', 'B'), ('c', 'C'), ('d', 'D'), ('e', 'E'),
   ('f', 'F'), ('g', 'G'), ('h', 'H'), ('i', 'I'), ('j', 'J'),
   ('k', 'K'), ('l', 'L'), ('m', 'M'), ('n', 'N'), ('o', 'O'),
   ('p', 'P'), ('q', 'Q'), ('r', 'R'), ('s', 'S'), ('t', 'T'),
   ('u', 'U'), ('v', 'V'), ('w', 'W'), ('x', 'X'), ('y', 'Y'),
   ('z', 'Z')]

/-- Python `str.upper` on one character, restricted to ASCII (the only
characters reaching this call in `_normalize_header`, which runs it after the
ASCII fold). -/
def pyUpperChar (c : Char) : Char :=
  (asciiUpperPairs.lookup c).getD c

/-- Latin-1 accented letters together with the ASCII base letter their NFKD
decomposition starts with. -/
def accentPairs : List (Char × Char) :=
  [('Á', 'A'), ('À', 'A'), ('Â', 'A'), ('Ã', 'A'), ('Ä', 'A'),
   ('á', 'a'), ('à', 'a'), ('â', 'a'), ('ã', 'a'), ('ä', 'a'),
   ('É', 'E'), ('È', 'E'), ('Ê', 'E'), ('Ë', 'E'),
   ('é', 'e'), ('è', 'e'), ('ê', 'e'), ('ë', 'e'),
   ('Í', 'I'), ('Ì', 'I'), ('Î', 'I'), ('Ï', 'I'),
   ('í', 'i'), ('ì', 'i'), ('î', 'i'), ('ï', 'i'),
   ('Ó', 'O'), ('Ò', 'O'), ('Ô', 'O'), ('Õ', 'O'), ('Ö', 'O'),
   ('ó', 'o'), ('ò', 'o'), ('ô', 'o'), ('õ', 'o'), ('ö', 'o'),
   ('Ú', 'U'), ('Ù', 'U'), ('Û', 'U'), ('Ü', 'U'),
   ('ú', 'u'), ('ù', 'u'), ('û', 'u'), ('ü', 'u'),
   ('Ç', 'C'), ('ç', 'c'), ('Ñ', 'N'), ('ñ', 'n')]

/-- Model of `unicodedata.normalize("NFKD", s).encode("ascii", "ignore")` on
one character: ASCII characters pass through, Latin-1 accented letters fold to
their base letter, every other character decomposes to no ASCII byte and is
dropped.  (Compatibility characters whose decomposition would yield several
ASCII bytes do not occur in the headers this engine handles and are modelled
as dropped.) -/
def asciiFold (c : Char) : List Char :=
  if c.toNat < 128 then [c]
  else
    match accentPairs.lookup c with
    | some b => [b]
    | none => []

/-- One character of the separator-replacement loop in `_normalize_header`:
alphanumeric characters are upper-cased, everything else becomes an
underscore. -/
def mapChar (c : Char) : Char :=
  if pyIsAlnum c then pyUpperChar c else '_'

/-- One pass of Python `s.replace("__", "_")`: scan left to right, replacing
each non-overlapping occurrence of a double underscore by one underscore. -/
def replaceDoubleUnderscore : List Char → List Char
  | [] => []
  | [c] => [c]
  | c1 :: c2 :: rest =>
    if c1 = '_' ∧ c2 = '_' then '_' :: replaceDoubleUnderscore rest
    else c1 :: replaceDoubleUnderscore (c2 :: rest)

/-- Python `"__" in s`: some adjacent pair of characters is two
underscores. -/
def hasDoubleUnderscore : List Char → Bool
  | [] => false
  | [_] => false
  | c1 :: c2 :: rest =>
    (c1 == '_' && c2 == '_') || hasDoubleUnderscore (c2 :: rest)

/-- Python loop `while "__" in s: s = s.replace("__", "_")`, with an explicit
iteration bound.  Each pass on a string still containing `"__"` strictly
shortens it, so `l.length` passes always reach the loop's exit condition;
`collapseFuel_no_double` below proves the bound sufficient. -/
def collapseUnderscoresFuel : Nat → List Char → List Char
  | 0, l => l
  | n + 1, l =>
    if hasDoubleUnderscore l then
      collapseUnderscoresFuel n (replaceDoubleUnderscore l)
    else l

/-- The collapse loop of `_normalize_header` run to completion. -/
def collapseUnderscores (l : List Char) : List Char :=
  collapseUnderscoresFuel l.length l

/-- Python `s.strip("_")`. -/
def stripUnderscores (l : List Char) : List Char :=
  dropTrailingWhile (fun c => c == '_') (l.dropWhile (fun c => c == '_'))

/-- Character-list body of `DataFileReader._normalize_header`: strip
surrounding whitespace, drop diacritics via NFKD + ASCII encode, replace
non-alphanumerics by underscore while upper-casing, collapse consecutive
underscores, trim leading and trailing underscores. -/
def normalizeHeaderList (l : List Char) : List Char :=
  stripUnderscores (collapseUnderscores
    (((pyStrip l).flatMap asciiFold).map mapChar))

/-- Model of `DataFileReader._normalize_header` on a string argument
(`str(name or "")` is the identity on strings). -/
def normalizeHeader (s : String) : String :=
  String.mk (normalizeHeaderList s.toList)

/-- Characters that the normalization pipeline can output: fixed points of
the upper-casing map, of the ASCII fold, and not whitespace. -/
def goodChar (c : Char) : Bool :=
  (mapChar c == c) && (asciiFold c == [c]) && (pyIsSpace c == false)

/-- Upper-case letters paired with their lower-case form, for the
`str.lower` calls of the source.  Modelled for ASCII and the Latin-1
accented letters appearing in the engine's truth tables and headers; other
characters are unchanged (no other upper-case character lower-cases into the
ASCII/Latin-1 tokens the source compares against). -/
def lowerPairs : List (Char × Char) :=
  [('A', 'a'), ('B', 'b'), ('C', 'c'), ('D', 'd'), ('E', 'e'),
   ('F', 'f'), ('G', 'g'), ('H', 'h'), ('I', 'i'), ('J', 'j'),
   ('K', 'k'), ('L', 'l'), ('M', 'm'), ('N', 'n'), ('O', 'o'),
   ('P', 'p'), ('Q', 'q'), ('R', 'r'), ('S', 's'), ('T', 't'),
   ('U', 'u'), ('V', 'v'), ('W', 'w'), ('X', 'x'), ('Y', 'y'),
   ('Z', 'z'),
   ('Á', 'á'), ('À', 'à'), ('Â', 'â'), ('Ã', 'ã'), ('Ä', 'ä'),
   ('É', 'é'), ('È', 'è'), ('Ê', 'ê'), ('Ë', 'ë'),
   ('Í', 'í'), ('Ì', 'ì'), ('Î', 'î'), ('Ï', 'ï'),
   ('Ó', 'ó'), ('Ò', 'ò'), ('Ô', 'ô'), ('Õ', 'õ'), ('Ö', 'ö'),
   ('Ú', 'ú'), ('Ù', 'ù'), ('Û', 'û'), ('Ü', 'ü'),
   ('Ç', 'ç'), ('Ñ', 'ñ')]

/-- Python `str.lower` on one character. -/
def pyLowerChar (c : Char) : Char :=
  (lowerPairs.lookup c).getD c

/-- Python `s.lower()` as a string function. -/
def pyLowerStr (s : String) : String :=
  String.mk (s.toList.map pyLowerChar)

/-! ## Type casting (`DataFileReader._apply_schema`, lines 436-471) -/

/-- A typed cell value produced by the schema cast.  Floats produced by
`pandas.to_numeric` are modelled as exact rationals; datetimes and dates are
modelled as year/month/day triples (sub-day precision of pandas timestamps
plays no role in the claims below). -/
inductive TValue where
  | str (v : String)
  | int (v : Int)
  | float (v : ℚ)
  | bool (v : Bool)
  | dt (y m d : Nat)
  | date (y m d : Nat)
  | cat (v : String)
deriving DecidableEq

/-- Value of a digit string read in base 10. -/
def digitsVal (ds : List Char) : Nat :=
  ds.foldl (fun a c => 10 * a + (c.toNat - 48)) 0

/-- Unsigned decimal literal: digits with an optional single decimal point.
Helper for `parseDecimal`. -/
def parseUnsigned (cs : List Char) : Option ℚ :=
  let ip := cs.takeWhile Char.isDigit
  let r1 := cs.dropWhile Char.isDigit
  match r1 with
  | [] => if ip.isEmpty then none else some (mkRat (digitsVal ip) 1)
  | '.' :: r2 =>
    let fp := r2.takeWhile Char.isDigit
    let r3 := r2.dropWhile Char.isDigit
    if r3.isEmpty ∧ ¬(ip.isEmpty ∧ fp.isEmpty) then
      some (mkRat (digitsVal (ip ++ fp)) (10 ^ fp.length))
    else none
  | _ => none

/-- Model of the numeric parse performed by
`pandas.to_numeric(..., errors="coerce")` on one string: surrounding
whitespace is ignored, an optional sign precedes a plain decimal literal,
anything else fails (a `none` result = coerced to null).  Scientific
notation and the `inf`/`nan` spellings, which pandas would also accept but
which have no finite rational value or do not occur in the engine's data,
are not modelled. -/
def parseDecimal (s : String) : Option ℚ :=
  match pyStrip s.toList with
  | '+' :: rest => parseUnsigned rest
  | '-' :: rest => (parseUnsigned rest).map Neg.neg
  | cs => parseUnsigned cs

/-- Source lines 455/458: `.str.replace(".", "", regex=False).str.replace(",",
".", regex=False)` — remove every (thousands-separator) period, then turn
every (decimal) comma into a period.  For these single-character patterns
Python `str.replace` is exactly a character filter followed by a character
map. -/
def cleanNumeric (s : String) : String :=
  String.mk ((s.toList.filter (fun c => c ≠ '.')).map
    (fun c => if c = ',' then '.' else c))

/-- Python `Series.astype(str)` on one cell: a missing value (`pd.NA`)
stringifies to `"<NA>"`. -/
def pyStrOfCell : Option String → String
  | some s => s
  | none => "<NA>"

/-- One cell of the numeric cast pipeline of lines 455-459:
`astype(str)` → separator cleanup → `to_numeric(errors="coerce")`. -/
def toNumericCell (c : Option String) : Option ℚ :=
  parseDecimal (cleanNumeric (pyStrOfCell c))

/-- Truth table of the boolean cast (lines 462-465), in source order. -/
def boolTable : List (String × Bool) :=
  [("true", true), ("t", true), ("1", true), ("sim", true), ("yes", true),
   ("y", true),
   ("false", false), ("f", false), ("0", false), ("nao", false),
   ("não", false), ("no", false), ("n", false)]

/-- One cell of the boolean cast:
`astype("string").str.strip().str.lower().map(table)`; a missing value stays
missing, an unmatched token becomes missing. -/
def castBoolCell (c : Option String) : Option Bool :=
  c.bind (fun s => boolTable.lookup (pyLowerStr (pyStripStr s)))

/-- Splitting a character list on a separator character (model of Python
`str.split(sep)` for a one-character separator). -/
def splitOnChar (sep : Char) : List Char → List (List Char)
  | [] => [[]]
  | c :: rest =>
    let r := splitOnChar sep rest
    if c = sep then [] :: r
    else
      match r with
      | h :: t => (c :: h) :: t
      | [] => [[c]]

/-- Model of `pandas.to_datetime(..., errors="coerce", dayfirst=True)` on one
string cell, for slash-separated day-first dates (the only datetime shape
relevant to the claims below; every other input coerces to null). -/
def parseDayFirst (s : String) : Option (Nat × Nat × Nat) :=
  match splitOnChar '/' s.toList with
  | [d, m, y] =>
    if d ≠ [] ∧ m ≠ [] ∧ y ≠ [] ∧ d.all Char.isDigit ∧ m.all Char.isDigit ∧
        y.all Char.isDigit then
      let dn := digitsVal d
      let mn := digitsVal m
      if 1 ≤ dn ∧ dn ≤ 31 ∧ 1 ≤ mn ∧ mn ≤ 12 then
        some (digitsVal y, mn, dn)
      else none
    else none
  | _ => none

/-- Model of the per-type column cast of `_apply_schema` (lines 445-471). The
integer branch mirrors `to_numeric(...).astype("Int64")`: pandas' nullable
`Int64` cast raises `TypeError: cannot safely cast non-equivalent float64 to
int64` (`safe_cast` in `pandas.core.arrays`) when a parsed value has a
fractional part, so the branch is `Except`-valued; every other branch never
fails. -/
def castColumn (typeTxt : String) (raw : List (Option String)) :
    Except String (List (Option TValue)) :=
  let tkey := pyLowerStr (pyStripStr typeTxt)
  if tkey = "datetime" ∨ tkey = "datetime64" then
    .ok (raw.map (fun c =>
      (c.bind parseDayFirst).map (fun p => TValue.dt p.1 p.2.1 p.2.2)))
  else if tkey = "date" then
    .ok (raw.map (fun c =>
      (c.bind parseDayFirst).map (fun p => TValue.date p.1 p.2.1 p.2.2)))
  else if tkey = "int" ∨ tkey = "int64" ∨ tkey = "integer" then
    let nums := raw.map toNumericCell
    if nums.all (fun q => q.elim true (fun v => decide (v.den = 1))) then
      .ok (nums.map (Option.map (fun v => TValue.int v.num)))
    else .error "cannot safely cast non-equivalent float64 to int64"
  else if tkey = "float" ∨ tkey = "float64" ∨ tkey = "number" then
    .ok ((raw.map toNumericCell).map (Option.map TValue.float))
  else if tkey = "bool" ∨ tkey = "boolean" then
    .ok (raw.map (fun c => (castBoolCell c).map TValue.bool))
  else if tkey = "category" then
    .ok (raw.map (Option.map TValue.cat))
  else
    .ok (raw.map (Option.map TValue.str))

/-- The type keys recognized by the dispatch of `_apply_schema`; any other
key falls through to the string cast. -/
def recognizedTypeKeys : List String :=
  ["datetime", "datetime64", "date", "int", "int64", "integer",
   "float", "float64", "number", "bool", "boolean", "category"]

/-- Tokens mapped to `True` by the boolean truth table. -/
def trueTokens : List String := ["true", "t", "1", "sim", "yes", "y"]

/-- Tokens mapped to `False` by the boolean truth table. -/
def falseTokens : List String := ["false", "f", "0", "nao", "não", "no", "n"]

/-! ## Data frames and `_apply_schema` -/

/-- An untyped data frame as produced by the format readers: named columns of
raw text cells (`none` = missing value), all of length `nrows`. -/
structure RawFrame where
  nrows : Nat
  cols : List (String × List (Option String))
deriving DecidableEq

/-- A typed data frame as returned by `_apply_schema`. -/
structure TypedFrame where
  nrows : Nat
  cols : List (String × List (Option TValue))
deriving DecidableEq

/-- Column access by label (`df[name]` / `name in df.columns`): first column
with the given label. -/
def findCol {α : Type} (cols : List (String × List α)) (name : String) :
    Option (List α) :=
  (cols.find? (fun p => p.1 == name)).map Prod.snd

/-- Lines 439-441: `for col in schema.keys(): if col not in out.columns:
out[col] = pd.NA` — each missing schema column is appended (in schema order)
as an all-null column. -/
def addMissingCols (df : RawFrame) (schema : List (String × String)) :
    RawFrame :=
  let missing := (schema.filter (fun kv => (findCol df.cols kv.1).isNone)).map
    (fun kv => (kv.1, List.replicate df.nrows (none : Option String)))
  { df with cols := df.cols ++ missing }

/-- Line 442: `out = out[list(schema.keys())]` — select the schema's columns
in schema order (all present after `addMissingCols`). -/
def selectCols (df : RawFrame) (keys : List String) : RawFrame :=
  { df with cols := keys.filterMap (fun k =>
      (findCol df.cols k).map (fun v => (k, v))) }

/-- Lines 445-471: cast every schema column in schema order; the first
failing cast (pandas exception) aborts, as in Python. -/
def castCols (df : RawFrame) :
    List (String × String) →
      Except String (List (String × List (Option TValue)))
  | [] => .ok []
  | kv :: rest =>
    match castColumn kv.2 ((findCol df.cols kv.1).getD
        (List.replicate df.nrows (none : Option String))) with
    | .error e => .error e
    | .ok c =>
      match castCols df rest with
      | .error e => .error e
      | .ok others => .ok ((kv.1, c) :: others)

/-- Model of `DataFileReader._apply_schema`: materialize missing schema
columns as null, restrict and reorder to the schema's ordered column list,
then cast each column by its declared type.  (`selectCols` preserves the row
count, so the result's `nrows` is `df.nrows`.) -/
def applySchema (df : RawFrame) (schema : List (String × String)) :
    Except String TypedFrame :=
  (castCols (selectCols (addMissingCols df schema) (schema.map Prod.fst))
      schema).map
    (fun cols => { nrows := df.nrows, cols := cols })

/-! ## Schema extraction (`_extract_schema_mapping`, lines 206-243) -/

/-- One column declaration of a schema descriptor (`{name: ..., type: ...}`);
either field may be absent (JSON `null` / missing key). -/
structure ColDef where
  name : Option String
  type : Option String
deriving DecidableEq

/-- Assignment into a Python `dict` modelled on an ordered association list:
overwrite in place if the key exists, else append. -/
def dictInsert (m : List (String × String)) (k v : String) :
    List (String × String) :=
  if m.any (fun p => p.1 == k) then
    m.map (fun p => if p.1 == k then (k, v) else p)
  else m ++ [(k, v)]

/-- Model of the `"columns"`-shape branch of
`DataFileReader._extract_schema_mapping` (lines 216-224): for each column
definition with a truthy name, `out[name] = (typ or "string")` — a missing or
empty type string defaults to `"string"`. -/
def extractColumnsMapping (columns : List ColDef) : List (String × String) :=
  columns.foldl (fun out cd =>
    match cd.name with
    | none => out
    | some n =>
      if n = "" then out
      else dictInsert out n
        (match cd.type with
         | none => "string"
         | some t => if t = "" then "string" else t)) []

/-! ## JSON-Lines detection (`_is_ndjson`, lines 485-499) -/

/-- Model of `DataFileReader._is_ndjson`, taking the file's lines.  The
source reads exactly 20 lines with `next(f)`; on a file with fewer than 20
lines `next` raises `StopIteration`, which the surrounding
`except Exception: return False` turns into `False` — hence the length
guard.  Among the 20 sampled lines, blank ones are ignored and a line counts
as an object when its stripped form begins with `\x7b` and ends with `\x7d`;
the float test `objs / max(total, 1) >= 0.6` coincides with the exact
rational test `5 * objs ≥ 3 * total` for every sample size up to 20. -/
def isNdjson (fileLines : List String) : Bool :=
  if fileLines.length < 20 then false
  else
    let sample := (fileLines.take 20).map (fun ln => pyStrip ln.toList)
    let nonblank := sample.filter (fun s => ¬s.isEmpty)
    let total := nonblank.length
    let objs := (nonblank.filter (fun s =>
      s.head? = some '\x7b' ∧ s.getLast? = some '\x7d')).length
    decide (3 ≤ total) && decide (3 * total ≤ 5 * objs)

/-- Modelled from the claim's words (C4), for comparison with `isNdjson`:
sample the first (up to) 20 non-blank lines and return `true` exactly when at
least 3 lines were sampled and at least 60% of them begin with `\x7b` and end
with `\x7d`. -/
def specIsNdjson (fileLines : List String) : Bool :=
  let nonblank := (fileLines.map (fun ln => pyStrip ln.toList)).filter
    (fun s => ¬s.isEmpty)
  let sample := nonblank.take 20
  let total := sample.length
  let objs := (sample.filter (fun s =>
    s.head? = some '\x7b' ∧ s.getLast? = some '\x7d')).length
  decide (3 ≤ total) && decide (3 * total ≤ 5 * objs)

/-! ## Folder batch assembly (`read_folder`, lines 521-643) -/

/-- Simplified glob matcher: `*` and `?` wildcards plus literal characters;
models Python `fnmatch.fnmatch` on a POSIX filesystem (where `normcase` is
the identity) for the patterns this engine is configured with — character
classes (`[...]`) are not used by the repository and are not modelled. -/
def globMatchFuel : Nat → List Char → List Char → Bool
  | 0, _, _ => false
  | _ + 1, [], [] => true
  | _ + 1, [], _ :: _ => false
  | n + 1, '*' :: ps, [] => globMatchFuel n ps []
  | n + 1, '*' :: ps, c :: cs =>
    globMatchFuel n ps (c :: cs) || globMatchFuel n ('*' :: ps) cs
  | n + 1, '?' :: ps, _ :: cs => globMatchFuel n ps cs
  | n + 1, p :: ps, c :: cs => (p == c) && globMatchFuel n ps cs
  | _ + 1, _ :: _, [] => false

/-- The fuel `|p| + |s| + 1` always suffices: every recursive step of
`globMatchFuel` consumes one unit of fuel while strictly shrinking
`|p| + |s|`, so the zero-fuel case is never reached. -/
def globMatch (p s : List Char) : Bool :=
  globMatchFuel (p.length + s.length + 1) p s

/-- Pattern match of a file name against one glob pattern. -/
def fnmatchStr (name pat : String) : Bool :=
  globMatch pat.toList name.toList

/-- Inner helper `_norm` of `read_folder` (lines 550-555): lower-case, then
NFD-decompose and drop combining marks.  Modelled with the same Latin-1
tables as the header normalizer: lower-casing via `pyLowerChar` and
mark-stripping via `asciiFold` (ASCII passes through, accented Latin-1
letters fold to their base letter). -/
def normName (s : String) : String :=
  String.mk ((s.toList.map pyLowerChar).flatMap asciiFold)

/-- Extension part of `os.path.splitext` on a bare file name (no directory
separators): the suffix from the last period on, provided some earlier
character of the name is not itself a period; otherwise empty. -/
def splitextExt (s : String) : String :=
  let cs := s.toList
  let rtail := cs.reverse.takeWhile (fun c => c ≠ '.')
  if rtail.length = cs.length then ""
  else
    let sepIdx := cs.length - rtail.length - 1
    if (cs.take sepIdx).all (fun c => c = '.') then ""
    else String.mk (cs.drop sepIdx)

/-- Model of `DataFileReader._ext` (lines 501-504) on a file name: lower-case
the name; a name ending in `.xlsx` keeps that five-character suffix, any
other name yields its `splitext` extension. -/
def fileExt (name : String) : String :=
  let s := pyLowerStr name
  if (".xlsx".toList).isSuffixOf s.toList then ".xlsx"
  else splitextExt s

/-- Model of `DataFileReader._kind_from_ext` (lines 506-516). -/
def kindFromExt (ext : String) : Option String :=
  if ext = ".csv" ∨ ext = ".txt" then some "csv"
  else if ext = ".xlsx" ∨ ext = ".xls" then some "xls"
  else if ext = ".json" then some "json"
  else if ext = ".yml" ∨ ext = ".yaml" then some "yaml"
  else none

/-- Errors surfaced by `read_folder`, named as in the specification's error
taxonomy; `readFailure` is an exception propagating out of the per-file
`self.read(...)` call. -/
inductive FolderError where
  | noFilesFound
  | emptySchema
  | noEligibleFiles
  | readFailure (msg : String)
  | noReadableFiles
deriving DecidableEq

instance {ε α : Type} [DecidableEq ε] [DecidableEq α] :
    DecidableEq (Except ε α) := fun x y =>
  match x, y with
  | .error a, .error b =>
    if h : a = b then .isTrue (by rw [h]) else .isFalse (by simp [h])
  | .ok a, .ok b =>
    if h : a = b then .isTrue (by rw [h]) else .isFalse (by simp [h])
  | .error _, .ok _ => .isFalse (by simp)
  | .ok _, .error _ => .isFalse (by simp)

/-- One directory entry visible to `read_folder`.  A path is modelled by its
name string (`p.name`; the provenance value `str(p)` versus `p.name`
coincides in this model).  `readResult` carries the outcome of
`self.read(path, schema_filename=...)` on that file with the configured
schema — the single-file pipeline (raw read, header reconciliation,
validation, `_apply_schema`) that `read_folder` invokes as a unit and whose
exceptions it does not catch. -/
structure Entry where
  name : String
  isFile : Bool
  readResult : Except String TypedFrame
deriving DecidableEq

/-- Label-based selection of typed columns, as in `df[keys]`. -/
def selectTyped (cols : List (String × List (Option TValue)))
    (keys : List String) : List (String × List (Option TValue)) :=
  keys.filterMap (fun k => (findCol cols k).map (fun v => (k, v)))

/-- Lines 624-629: ensure the schema's ordered columns exist (missing ones
created as all-null) and put them first, keeping any remaining columns behind
them in their current order. -/
def ensureOrdered (df : TypedFrame) (ordered : Option (List String)) :
    TypedFrame :=
  match ordered with
  | none => df
  | some ord =>
    let added := (ord.filter (fun c => (findCol df.cols c).isNone)).map
      (fun c => (c, List.replicate df.nrows (none : Option TValue)))
    let cols1 := df.cols ++ added
    let rest := (cols1.map Prod.fst).filter (fun c => ¬ord.contains c)
    { df with cols := selectTyped cols1 (ord ++ rest) }

/-- Column assignment `df[name] = value`: overwrite in place when the label
exists, else append at the end. -/
def setCol {α : Type} (cols : List (String × List α)) (name : String)
    (v : List α) : List (String × List α) :=
  if (findCol cols name).isSome then
    cols.map (fun p => if p.1 == name then (name, v) else p)
  else cols ++ [(name, v)]

/-- Lines 632-634: broadcast the source file name into the provenance column
and move that column to the end. -/
def appendFilenameCol (df : TypedFrame) (filenameColumn : String)
    (value : String) : TypedFrame :=
  let cols1 := setCol df.cols filenameColumn
    (List.replicate df.nrows (some (TValue.str value)))
  let names := (cols1.map Prod.fst).filter (fun c => c ≠ filenameColumn)
    ++ [filenameColumn]
  { df with cols := selectTyped cols1 names }

/-- Model of `pd.concat(frames, ignore_index=True)`: row counts add up;
columns are aligned by label in order of first appearance, with cells of a
frame lacking a label filled with null. -/
def concatFrames (frames : List TypedFrame) : TypedFrame :=
  let names := (frames.flatMap (fun f => f.cols.map Prod.fst)).eraseDups
  { nrows := (frames.map (fun f => f.nrows)).sum,
    cols := names.map (fun n =>
      (n, frames.flatMap (fun f =>
        (findCol f.cols n).getD (List.replicate f.nrows none)))) }

/-- The per-file loop of `read_folder` (lines 607-635) over the sorted
selection: a file whose extension has no recognized kind is skipped (with a
warning); otherwise `self.read` runs — its failure aborts the whole batch —
and the resulting frame is re-ordered, provenance-tagged and collected. -/
def processFiles (ordered : Option (List String)) (filenameColumn : String) :
    List Entry → Except String (List TypedFrame)
  | [] => .ok []
  | e :: rest =>
    match kindFromExt (fileExt e.name) with
    | none => processFiles ordered filenameColumn rest
    | some _ =>
      match e.readResult with
      | .error msg => .error msg
      | .ok df =>
        match processFiles ordered filenameColumn rest with
        | .error msg => .error msg
        | .ok frames =>
          .ok (appendFilenameCol (ensureOrdered df ordered)
            filenameColumn e.name :: frames)

/-- Lines 581-584: the effective pattern list — explicit `patterns` when
non-empty, else the single legacy `pattern`. -/
def folderPats (pattern : String) (patterns : Option (List String)) :
    List String :=
  match patterns with
  | some ps => if ps.isEmpty then [pattern] else ps
  | none => [pattern]

/-- Lines 586-594: the `_matches` predicate, with optional lower-case and
diacritic-insensitive comparison. -/
def entryMatches (normalizeNames : Bool) (pats : List String) (e : Entry) :
    Bool :=
  if normalizeNames then
    pats.any (fun pat => fnmatchStr (normName e.name) (normName pat))
  else pats.any (fun pat => fnmatchStr e.name pat)

/-- Code-point lexicographic comparison of character lists — Python's string
(and hence, within one directory, `Path`) ordering. -/
def charListLe : List Char → List Char → Bool
  | [], _ => true
  | _ :: _, [] => false
  | c :: cs, d :: ds =>
    if c.toNat < d.toNat then true
    else if d.toNat < c.toNat then false
    else charListLe cs ds

/-- Sort order used by `sorted(selected)`: lexicographic on the path
strings. -/
def entryLE (a b : Entry) : Prop :=
  charListLe a.name.toList b.name.toList = true

instance : DecidableRel entryLE :=
  fun a b => inferInstanceAs (Decidable (_ = true))

/-- Model of `DataFileReader.read_folder`.  The folder's contents are given
as the enumerated directory entries (the outcome of `folder.glob("*")` or
`folder.rglob("*")`, in enumeration order); the schema file is given already
parsed as its column-type mapping and ordered column list (`schema_map` and
`ordered` in the source); per-file read outcomes ride on the entries. -/
def readFolder (entries : List Entry) (pattern : String)
    (patterns : Option (List String)) (normalizeNames : Bool)
    (schemaMap : List (String × String)) (ordered : Option (List String))
    (filenameColumn : String) : Except FolderError TypedFrame :=
  let files := entries.filter (fun e => e.isFile)
  if files.isEmpty then .error .noFilesFound
  else if schemaMap.isEmpty then .error .emptySchema
  else
    let pats := folderPats pattern patterns
    let selected := files.filter (entryMatches normalizeNames pats)
    if selected.isEmpty then .error .noEligibleFiles
    else
      match processFiles ordered filenameColumn
          (List.insertionSort entryLE selected) with
      | .error msg => .error (.readFailure msg)
      | .ok frames =>
        if frames.isEmpty then .error .noReadableFiles
        else .ok (concatFrames frames)

/-! ## Constructor validation (`__init__`, lines 24-40) -/

/-- A duck-typed collaborator object: the attribute names it exposes
(`hasattr`). -/
structure PyObj where
  attrs : List String
deriving DecidableEq

/-- Errors raised by `DataFileReader.__init__`. -/
inductive InitError where
  | valueError (msg : String)
  | typeError (msg : String)
deriving DecidableEq

/-- Model of the logger validation in `DataFileReader.__init__` (lines
31-38): `None` raises `ValueError`; otherwise the methods `info`, `warning`,
`error` are checked in order and the first one missing raises `TypeError`;
when all are present the logger is stored on the instance. -/
def checkLoggerInit (logger : Option PyObj) : Except InitError PyObj :=
  match logger with
  | none => .error (.valueError "logger é obrigatório para DataFileReader")
  | some lg =>
    match ["info", "warning", "error"].find?
        (fun m => !(lg.attrs.contains m)) with
    | some m => .error (.typeError ("logger não possui método necessário: "
        ++ m))
    | none => .ok lg

/-! ## Theorems: header normalization (C6) -/

theorem goodChar_spec {c : Char} (h : goodChar c = true) :
    mapChar c = c ∧ asciiFold c = [c] ∧ pyIsSpace c = false := by
  simp only [goodChar, Bool.and_eq_true, beq_iff_eq] at h
  exact ⟨h.1.1, h.1.2, h.2⟩

theorem mem_of_lookup_eq_some {l : List (Char × Char)} {c v : Char}
    (h : l.lookup c = some v) : (c, v) ∈ l := by
  rcases List.lookup_eq_some_iff.mp h with ⟨l1, l2, he, -⟩
  rw [he]
  simp

theorem upperPairs_snd_fact : ∀ p ∈ asciiUpperPairs,
    pyIsAlnum p.2 = true ∧ asciiUpperPairs.lookup p.2 = none ∧
      p.2.toNat < 128 := by decide

theorem pyUpperChar_idem (c : Char) :
    pyUpperChar (pyUpperChar c) = pyUpperChar c := by
  unfold pyUpperChar
  cases hl : asciiUpperPairs.lookup c with
  | none => simp [hl]
  | some v =>
    have hf := upperPairs_snd_fact (c, v) (mem_of_lookup_eq_some hl)
    simp [hf.2.1]

theorem pyIsAlnum_pyUpperChar {c : Char} (h : pyIsAlnum c = true) :
    pyIsAlnum (pyUpperChar c) = true := by
  unfold pyUpperChar
  cases hl : asciiUpperPairs.lookup c with
  | none => exact h
  | some v =>
    have hf := upperPairs_snd_fact (c, v) (mem_of_lookup_eq_some hl)
    exact hf.1

theorem pyIsAlnum_toNat_lt {c : Char} (h : pyIsAlnum c = true) :
    c.toNat < 128 := by
  simp only [pyIsAlnum, Bool.or_eq_true, Bool.and_eq_true,
    decide_eq_true_eq] at h
  omega

theorem asciiFold_of_lt {c : Char} (h : c.toNat < 128) : asciiFold c = [c] := by
  unfold asciiFold
  rw [if_pos h]

theorem pyIsSpace_eq_false_of_alnum {c : Char} (h : pyIsAlnum c = true) :
    pyIsSpace c = false := by
  by_contra hs
  rw [Bool.not_eq_false] at hs
  simp only [pyIsSpace, Bool.or_eq_true, beq_iff_eq] at hs
  rcases hs with ((((((h1 | h1) | h1) | h1) | h1) | h1) | h1) <;> subst h1 <;>
    exact absurd h (by decide)

theorem goodChar_mapChar (c : Char) : goodChar (mapChar c) = true := by
  by_cases ha : pyIsAlnum c = true
  · have h2 : pyIsAlnum (pyUpperChar c) = true := pyIsAlnum_pyUpperChar ha
    have hmc : mapChar c = pyUpperChar c := by
      unfold mapChar; rw [if_pos ha]
    rw [hmc]
    simp only [goodChar, Bool.and_eq_true, beq_iff_eq]
    refine ⟨⟨?_, ?_⟩, ?_⟩
    · unfold mapChar
      rw [if_pos h2]
      exact pyUpperChar_idem c
    · exact asciiFold_of_lt (pyIsAlnum_toNat_lt h2)
    · exact pyIsSpace_eq_false_of_alnum h2
  · have hmc : mapChar c = '_' := by
      unfold mapChar
      rw [if_neg ha]
    rw [hmc]
    decide

theorem replaceDU_length_le : ∀ l : List Char,
    (replaceDoubleUnderscore l).length ≤ l.length
  | [] => by simp [replaceDoubleUnderscore]
  | [c] => by simp [replaceDoubleUnderscore]
  | c1 :: c2 :: rest => by
    by_cases h : c1 = '_' ∧ c2 = '_'
    · have := replaceDU_length_le rest
      simp only [replaceDoubleUnderscore, if_pos h, List.length_cons]
      omega
    · have := replaceDU_length_le (c2 :: rest)
      simp only [replaceDoubleUnderscore, if_neg h, List.length_cons] at *
      omega

theorem replaceDU_length_lt : ∀ l : List Char, hasDoubleUnderscore l = true →
    (replaceDoubleUnderscore l).length < l.length
  | [] => by simp [hasDoubleUnderscore]
  | [c] => by simp [hasDoubleUnderscore]
  | c1 :: c2 :: rest => by
    intro h
    by_cases hd : c1 = '_' ∧ c2 = '_'
    · have := replaceDU_length_le rest
      simp only [replaceDoubleUnderscore, if_pos hd, List.length_cons]
      omega
    · have hrest : hasDoubleUnderscore (c2 :: rest) = true := by
        simp only [hasDoubleUnderscore, Bool.or_eq_true, Bool.and_eq_true,
          beq_iff_eq] at h
        tauto
      have := replaceDU_length_lt (c2 :: rest) hrest
      simp only [replaceDoubleUnderscore, if_neg hd, List.length_cons] at *
      omega

theorem mem_replaceDU : ∀ l : List Char, ∀ a ∈ replaceDoubleUnderscore l, a ∈ l
  | [] => by simp [replaceDoubleUnderscore]
  | [c] => by simp [replaceDoubleUnderscore]
  | c1 :: c2 :: rest => by
    intro a ha
    by_cases h : c1 = '_' ∧ c2 = '_'
    · rw [replaceDoubleUnderscore, if_pos h] at ha
      rcases List.mem_cons.mp ha with h1 | h1
      · subst h1; rw [h.1]; exact List.mem_cons_self _ _
      · exact List.mem_cons_of_mem _
          (List.mem_cons_of_mem _ (mem_replaceDU rest a h1))
    · rw [replaceDoubleUnderscore, if_neg h] at ha
      rcases List.mem_cons.mp ha with h1 | h1
      · subst h1; exact List.mem_cons_self _ _
      · exact List.mem_cons_of_mem _ (mem_replaceDU (c2 :: rest) a h1)

theorem mem_collapseFuel : ∀ (n : Nat) (l : List Char),
    ∀ a ∈ collapseUnderscoresFuel n l, a ∈ l
  | 0, l => by intro a ha; exact ha
  | n + 1, l => by
    intro a ha
    by_cases hd : hasDoubleUnderscore l = true
    · rw [collapseUnderscoresFuel, if_pos hd] at ha
      exact mem_replaceDU l a (mem_collapseFuel n (replaceDoubleUnderscore l)
        a ha)
    · rwa [collapseUnderscoresFuel, if_neg hd] at ha

theorem mem_collapse (l : List Char) : ∀ a ∈ collapseUnderscores l, a ∈ l :=
  mem_collapseFuel l.length l

theorem collapseFuel_no_double : ∀ (n : Nat) (l : List Char),
    l.length ≤ n → hasDoubleUnderscore (collapseUnderscoresFuel n l) = false
  | 0, l => by
    intro hl
    have : l = [] := List.length_eq_zero.mp (Nat.le_zero.mp hl)
    subst this
    rfl
  | n + 1, l => by
    intro hl
    by_cases hd : hasDoubleUnderscore l = true
    · rw [collapseUnderscoresFuel, if_pos hd]
      have := replaceDU_length_lt l hd
      exact collapseFuel_no_double n (replaceDoubleUnderscore l) (by omega)
    · rw [collapseUnderscoresFuel, if_neg hd]
      exact Bool.not_eq_true _ |>.mp hd

theorem collapse_no_double (l : List Char) :
    hasDoubleUnderscore (collapseUnderscores l) = false :=
  collapseFuel_no_double l.length l (Nat.le_refl _)

theorem collapseFuel_eq_self {l : List Char}
    (h : hasDoubleUnderscore l = false) :
    ∀ n, collapseUnderscoresFuel n l = l := by
  intro n
  cases n with
  | zero => rfl
  | succ n => rw [collapseUnderscoresFuel, if_neg (by simp [h])]

theorem collapse_eq_self_of {l : List Char}
    (h : hasDoubleUnderscore l = false) : collapseUnderscores l = l :=
  collapseFuel_eq_self h l.length

theorem mem_of_mem_dropTrailing {p : Char → Bool} {l : List Char} {a : Char}
    (h : a ∈ dropTrailingWhile p l) : a ∈ l := by
  unfold dropTrailingWhile at h
  rw [List.mem_reverse] at h
  have := (List.dropWhile_sublist (l := l.reverse) p).subset h
  rwa [List.mem_reverse] at this

theorem mem_of_mem_stripUnderscores {l : List Char} {a : Char}
    (h : a ∈ stripUnderscores l) : a ∈ l :=
  (List.dropWhile_sublist (l := l) _).subset (mem_of_mem_dropTrailing h)

theorem good_of_mem_normalize (l : List Char) :
    ∀ a ∈ normalizeHeaderList l, goodChar a = true := by
  intro a ha
  unfold normalizeHeaderList at ha
  have h1 := mem_collapse _ a (mem_of_mem_stripUnderscores ha)
  rcases List.mem_map.mp h1 with ⟨c, _, hc⟩
  rw [← hc]
  exact goodChar_mapChar c

theorem dropWhile_eq_self_of {p : Char → Bool} :
    ∀ l : List Char, (∀ a ∈ l, p a = false) → l.dropWhile p = l
  | [] => by intro _; rfl
  | c :: t => by
    intro h
    rw [List.dropWhile_cons, h c (List.mem_cons_self _ _)]
    simp

theorem dropTrailing_eq_self_of {p : Char → Bool} (l : List Char)
    (h : ∀ a ∈ l, p a = false) : dropTrailingWhile p l = l := by
  unfold dropTrailingWhile
  rw [dropWhile_eq_self_of l.reverse (fun a ha => h a (List.mem_reverse.mp ha))]
  exact List.reverse_reverse l

theorem pyStrip_eq_self_of (l : List Char) (h : ∀ a ∈ l, pyIsSpace a = false) :
    pyStrip l = l := by
  unfold pyStrip
  rw [dropWhile_eq_self_of l h]
  exact dropTrailing_eq_self_of l h

theorem flatMap_asciiFold_eq_self :
    ∀ l : List Char, (∀ a ∈ l, asciiFold a = [a]) → l.flatMap asciiFold = l
  | [] => by intro _; rfl
  | c :: t => by
    intro h
    rw [List.flatMap_cons, h c (List.mem_cons_self _ _),
      flatMap_asciiFold_eq_self t (fun a ha => h a (List.mem_cons_of_mem _ ha))]
    rfl

theorem map_mapChar_eq_self :
    ∀ l : List Char, (∀ a ∈ l, mapChar a = a) → l.map mapChar = l
  | [] => by intro _; rfl
  | c :: t => by
    intro h
    rw [List.map_cons, h c (List.mem_cons_self _ _),
      map_mapChar_eq_self t (fun a ha => h a (List.mem_cons_of_mem _ ha))]

theorem hdu_cons_of_tail {t : List Char} (a : Char)
    (h : hasDoubleUnderscore t = true) : hasDoubleUnderscore (a :: t) = true := by
  cases t with
  | nil => simp [hasDoubleUnderscore] at h
  | cons b t' =>
    rw [hasDoubleUnderscore, h]
    simp

theorem hdu_append_left : ∀ (s t : List Char),
    hasDoubleUnderscore t = true → hasDoubleUnderscore (s ++ t) = true
  | [], _, h => h
  | a :: s, t, h => hdu_cons_of_tail a (hdu_append_left s t h)

theorem hdu_of_decomp {l : List Char} (l1 l2 : List Char)
    (h : l = l1 ++ '_' :: '_' :: l2) : hasDoubleUnderscore l = true := by
  subst h
  apply hdu_append_left
  rw [hasDoubleUnderscore]
  simp

theorem hdu_decomp : ∀ l : List Char, hasDoubleUnderscore l = true →
    ∃ l1 l2, l = l1 ++ '_' :: '_' :: l2
  | [] => by simp [hasDoubleUnderscore]
  | [c] => by simp [hasDoubleUnderscore]
  | c1 :: c2 :: rest => by
    intro h
    rw [hasDoubleUnderscore, Bool.or_eq_true, Bool.and_eq_true] at h
    rcases h with ⟨h1, h2⟩ | h1
    · rw [beq_iff_eq] at h1 h2
      subst h1; subst h2
      exact ⟨[], rest, rfl⟩
    · rcases hdu_decomp (c2 :: rest) h1 with ⟨l1, l2, he⟩
      exact ⟨c1 :: l1, l2, by rw [List.cons_append, ← he]⟩

theorem hdu_of_infix {l1 l2 : List Char} (s t : List Char)
    (hst : l2 = s ++ l1 ++ t) (h : hasDoubleUnderscore l1 = true) :
    hasDoubleUnderscore l2 = true := by
  rcases hdu_decomp l1 h with ⟨a, b, hab⟩
  apply hdu_of_decomp (s ++ a) (b ++ t)
  rw [hst, hab]
  simp

theorem stripUnderscores_infix (l : List Char) :
    ∃ s t, l = s ++ stripUnderscores l ++ t := by
  unfold stripUnderscores dropTrailingWhile
  set q : Char → Bool := fun c => c == '_' with hq
  set m := l.dropWhile q with hm
  refine ⟨l.takeWhile q, (m.reverse.takeWhile q).reverse, ?_⟩
  have h1 : l.takeWhile q ++ m = l := List.takeWhile_append_dropWhile q l
  have h2 : m.reverse.takeWhile q ++ m.reverse.dropWhile q = m.reverse :=
    List.takeWhile_append_dropWhile q m.reverse
  have h3 : (m.reverse.dropWhile q).reverse ++ (m.reverse.takeWhile q).reverse
      = m := by
    rw [← List.reverse_append, h2, List.reverse_reverse]
  rw [List.append_assoc, h3, h1]

theorem no_double_stripUnderscores {l : List Char}
    (h : hasDoubleUnderscore l = false) :
    hasDoubleUnderscore (stripUnderscores l) = false := by
  by_contra hc
  rw [Bool.not_eq_false] at hc
  rcases stripUnderscores_infix l with ⟨s, t, hst⟩
  have h2 := hdu_of_infix s t hst hc
  rw [h] at h2
  exact Bool.false_ne_true h2

theorem head?_dropWhile_not {p : Char → Bool} :
    ∀ l : List Char, ∀ a, (l.dropWhile p).head? = some a → p a = false
  | [], a => by simp
  | c :: t, a => by
    intro h
    rw [List.dropWhile_cons] at h
    by_cases hc : p c = true
    · rw [if_pos hc] at h
      exact head?_dropWhile_not t a h
    · rw [if_neg hc] at h
      simp only [List.head?_cons, Option.some.injEq] at h
      subst h
      exact Bool.not_eq_true _ |>.mp hc

theorem head?_append_of_ne_nil {l t : List Char} (h : l ≠ []) :
    (l ++ t).head? = l.head? := by
  cases l with
  | nil => exact absurd rfl h
  | cons a l' => rfl

theorem head?_dropTrailingWhile {p : Char → Bool} (l : List Char) (a : Char)
    (h : (dropTrailingWhile p l).head? = some a) : l.head? = some a := by
  have hdec : dropTrailingWhile p l ++ (l.reverse.takeWhile p).reverse = l := by
    unfold dropTrailingWhile
    rw [← List.reverse_append, List.takeWhile_append_dropWhile,
      List.reverse_reverse]
  have hne : dropTrailingWhile p l ≠ [] := by
    intro h0
    rw [h0] at h
    exact Option.noConfusion h
  rw [← hdec, head?_append_of_ne_nil hne]
  exact h

theorem stripUnderscores_head {l : List Char} :
    (stripUnderscores l).head? ≠ some '_' := by
  intro hc
  have h1 : (l.dropWhile (fun c => c == '_')).head? = some '_' :=
    head?_dropTrailingWhile _ _ hc
  have h2 := head?_dropWhile_not l '_' h1
  simp at h2

theorem stripUnderscores_getLast {l : List Char} :
    (stripUnderscores l).getLast? ≠ some '_' := by
  intro hc
  unfold stripUnderscores dropTrailingWhile at hc
  rw [List.getLast?_reverse] at hc
  have h2 := head?_dropWhile_not
    (l.dropWhile (fun c => c == '_')).reverse '_' hc
  simp at h2

theorem stripUnderscores_eq_self {l : List Char} (h1 : l.head? ≠ some '_')
    (h2 : l.getLast? ≠ some '_') : stripUnderscores l = l := by
  unfold stripUnderscores dropTrailingWhile
  have hdw : l.dropWhile (fun c => c == '_') = l := by
    cases l with
    | nil => rfl
    | cons a t =>
      rw [List.dropWhile_cons, if_neg]
      intro hq
      rw [beq_iff_eq] at hq
      exact h1 (by rw [hq]; rfl)
  rw [hdw]
  have hdw2 : l.reverse.dropWhile (fun c => c == '_') = l.reverse := by
    cases hr : l.reverse with
    | nil => rfl
    | cons a t =>
      rw [List.dropWhile_cons, if_neg]
      intro hq
      rw [beq_iff_eq] at hq
      apply h2
      rw [← List.head?_reverse, hr, hq]
      rfl
  rw [hdw2, List.reverse_reverse]

theorem normalizeHeaderList_idem (l : List Char) :
    normalizeHeaderList (normalizeHeaderList l) = normalizeHeaderList l := by
  have hg := good_of_mem_normalize l
  set r := normalizeHeaderList l with hr
  have hstrip : pyStrip r = r :=
    pyStrip_eq_self_of r (fun a ha => (goodChar_spec (hg a ha)).2.2)
  have hfold : r.flatMap asciiFold = r :=
    flatMap_asciiFold_eq_self r (fun a ha => (goodChar_spec (hg a ha)).2.1)
  have hmap : r.map mapChar = r :=
    map_mapChar_eq_self r (fun a ha => (goodChar_spec (hg a ha)).1)
  have hnd : hasDoubleUnderscore r = false := by
    rw [hr]
    unfold normalizeHeaderList
    exact no_double_stripUnderscores (collapse_no_double _)
  have hcol : collapseUnderscores r = r := collapse_eq_self_of hnd
  have hsu : stripUnderscores r = r := by
    apply stripUnderscores_eq_self
    · rw [hr]
      unfold normalizeHeaderList
      exact stripUnderscores_head
    · rw [hr]
      unfold normalizeHeaderList
      exact stripUnderscores_getLast
  calc normalizeHeaderList r
      = stripUnderscores (collapseUnderscores (((pyStrip r).flatMap
          asciiFold).map mapChar)) := rfl
    _ = r := by rw [hstrip, hfold, hmap, hcol, hsu]

/-- C6: header normalization is idempotent — applying
`DataFileReader._normalize_header` to an already-normalized header string
returns that string unchanged; in particular re-normalizing any normalized
name yields the same name. -/
theorem c6_normalizeHeader_idempotent (s : String) :
    normalizeHeader (normalizeHeader s) = normalizeHeader s := by
  unfold normalizeHeader
  have h : (String.mk (normalizeHeaderList s.toList)).toList
      = normalizeHeaderList s.toList := rfl
  rw [h, normalizeHeaderList_idem]

/-! ## Theorems: type casting (C2, C3, C5) -/

theorem castColumn_int_eq {ty : String}
    (h : pyLowerStr (pyStripStr ty) = "int" ∨
      pyLowerStr (pyStripStr ty) = "int64" ∨
      pyLowerStr (pyStripStr ty) = "integer")
    (raw : List (Option String)) :
    castColumn ty raw =
      if (raw.map toNumericCell).all
          (fun q => q.elim true (fun v => decide (v.den = 1))) then
        .ok ((raw.map toNumericCell).map
          (Option.map (fun v => TValue.int v.num)))
      else .error "cannot safely cast non-equivalent float64 to int64" := by
  simp only [castColumn]
  rw [if_neg (by rcases h with h | h | h <;> rw [h] <;> decide),
    if_neg (by rcases h with h | h | h <;> rw [h] <;> decide),
    if_pos h]

theorem castColumn_float_eq {ty : String}
    (h : pyLowerStr (pyStripStr ty) = "float" ∨
      pyLowerStr (pyStripStr ty) = "float64" ∨
      pyLowerStr (pyStripStr ty) = "number")
    (raw : List (Option String)) :
    castColumn ty raw
      = .ok ((raw.map toNumericCell).map (Option.map TValue.float)) := by
  simp only [castColumn]
  rw [if_neg (by rcases h with h | h | h <;> rw [h] <;> decide),
    if_neg (by rcases h with h | h | h <;> rw [h] <;> decide),
    if_neg (by rcases h with h | h | h <;> rw [h] <;> decide),
    if_pos h]

theorem castColumn_bool_eq {ty : String}
    (h : pyLowerStr (pyStripStr ty) = "bool" ∨
      pyLowerStr (pyStripStr ty) = "boolean")
    (raw : List (Option String)) :
    castColumn ty raw
      = .ok (raw.map (fun c => (castBoolCell c).map TValue.bool)) := by
  simp only [castColumn]
  rw [if_neg (by rcases h with h | h <;> rw [h] <;> decide),
    if_neg (by rcases h with h | h <;> rw [h] <;> decide),
    if_neg (by rcases h with h | h <;> rw [h] <;> decide),
    if_neg (by rcases h with h | h <;> rw [h] <;> decide),
    if_pos h]

theorem castColumn_string_fallback {ty : String}
    (h : pyLowerStr (pyStripStr ty) ∉ recognizedTypeKeys)
    (raw : List (Option String)) :
    castColumn ty raw = .ok (raw.map (Option.map TValue.str)) := by
  simp only [recognizedTypeKeys, List.mem_cons, List.not_mem_nil, or_false,
    not_or] at h
  obtain ⟨n1, n2, n3, n4, n5, n6, n7, n8, n9, n10, n11, n12⟩ := h
  simp only [castColumn]
  rw [if_neg (not_or.mpr ⟨n1, n2⟩), if_neg n3,
    if_neg (not_or.mpr ⟨n4, not_or.mpr ⟨n5, n6⟩⟩),
    if_neg (not_or.mpr ⟨n7, not_or.mpr ⟨n8, n9⟩⟩),
    if_neg (not_or.mpr ⟨n10, n11⟩), if_neg n12]

/-- C2 counterexample: a schema column typed with the unrecognized string
`"banana"` does not make reading fail — `_apply_schema` silently applies the
string cast, the same result as declaring the type `"string"`. -/
theorem c2_counterexample :
    applySchema ⟨1, [("A", [some "xyz"])]⟩ [("A", "banana")]
        = .ok ⟨1, [("A", [some (TValue.str "xyz")])]⟩ ∧
      applySchema ⟨1, [("A", [some "xyz"])]⟩ [("A", "banana")]
        = applySchema ⟨1, [("A", [some "xyz"])]⟩ [("A", "string")] :=
  ⟨by decide, by decide⟩

/-- C2 (amended): an unrecognized type string does not fail fast —
`_apply_schema` silently casts such a column with the string fallback,
identical to `castColumn` on the type `"string"`; and in
`_extract_schema_mapping` a declared column with no type (or an empty type
string) defaults to `"string"`. -/
theorem c2_unrecognized_type_string_fallback (ty : String)
    (raw : List (Option String)) (n : String)
    (h : pyLowerStr (pyStripStr ty) ∉ recognizedTypeKeys) (hn : n ≠ "") :
    castColumn ty raw = .ok (raw.map (Option.map TValue.str)) ∧
    castColumn ty raw = castColumn "string" raw ∧
    extractColumnsMapping [⟨some n, none⟩] = [(n, "string")] := by
  refine ⟨castColumn_string_fallback h raw, ?_, ?_⟩
  · rw [castColumn_string_fallback h raw,
      castColumn_string_fallback (by decide) raw]
  · simp [extractColumnsMapping, dictInsert, hn]

theorem c2_unrecognized_type_string_fallback_witness :
    castColumn "banana" [some "a", none]
        = .ok [some (TValue.str "a"), none] ∧
    castColumn "banana" [some "a", none]
        = castColumn "string" [some "a", none] ∧
    extractColumnsMapping [⟨some "X", none⟩] = [("X", "string")] :=
  c2_unrecognized_type_string_fallback "banana" [some "a", none] "X"
    (by decide) (by decide)

/-- C3 counterexample: the input text `"84;51"` does not yield `84.51` — the
cast only touches periods and commas, the semicolon survives, the parse
fails, and the cell coerces to null. -/
theorem c3_counterexample :
    castColumn "float" [some "84;51"] = .ok [none] ∧
    (Except.ok [none] : Except String (List (Option TValue)))
      ≠ .ok [some (TValue.float (mkRat 8451 100))] :=
  ⟨by decide, by decide⟩

/-- C3 (amended): numeric casting removes thousands-separator periods and
turns decimal commas into periods before parsing, so `"1.234,56"` yields
`1234.56`; `"84;51"` is unparseable (the semicolon is untouched) and yields
null; every unparseable cell yields null on float and integer columns, and a
float column never raises. -/
theorem c3_numeric_cast (c : Option String) (h : toNumericCell c = none) :
    cleanNumeric "1.234,56" = "1234.56" ∧
    castColumn "float" [some "1.234,56"]
      = .ok [some (TValue.float (mkRat 123456 100))] ∧
    castColumn "float" [some "84;51"] = .ok [none] ∧
    castColumn "float" [c] = .ok [none] ∧
    castColumn "int" [c] = .ok [none] ∧
    (∀ raw : List (Option String), (castColumn "float" raw).isOk = true) := by
  refine ⟨by decide, by decide, by decide, ?_, ?_, ?_⟩
  · rw [castColumn_float_eq (by decide)]
    simp [h]
  · rw [castColumn_int_eq (by decide)]
    simp [h, Option.elim]
  · intro raw
    rw [castColumn_float_eq (by decide)]
    rfl

theorem c3_numeric_cast_witness :
    cleanNumeric "1.234,56" = "1234.56" ∧
    castColumn "float" [some "1.234,56"]
      = .ok [some (TValue.float (mkRat 123456 100))] ∧
    castColumn "float" [some "84;51"] = .ok [none] ∧
    castColumn "float" [some "abc"] = .ok [none] ∧
    castColumn "int" [some "abc"] = .ok [none] ∧
    (∀ raw : List (Option String), (castColumn "float" raw).isOk = true) :=
  c3_numeric_cast (some "abc") (by decide)

/-- C5: the boolean cast is a case-insensitive, whitespace-trimmed lookup in
the fixed truth table — tokens `true, t, 1, sim, yes, y` map to true, tokens
`false, f, 0, nao, não, no, n` map to false, every other token maps to null;
in particular `"Sim"`, `" SIM "` and `"sim"` all cast to true and
`"talvez"` casts to null. -/
theorem c5_boolean_truth_table :
    (∀ s : String,
      (pyLowerStr (pyStripStr s) ∈ trueTokens →
        castBoolCell (some s) = some true) ∧
      (pyLowerStr (pyStripStr s) ∈ falseTokens →
        castBoolCell (some s) = some false) ∧
      (pyLowerStr (pyStripStr s) ∉ trueTokens →
        pyLowerStr (pyStripStr s) ∉ falseTokens →
        castBoolCell (some s) = none)) ∧
    castColumn "bool" [some "Sim", some " SIM ", some "sim", some "talvez"]
      = .ok [some (TValue.bool true), some (TValue.bool true),
          some (TValue.bool true), none] := by
  constructor
  · intro s
    refine ⟨?_, ?_, ?_⟩
    · intro h
      show boolTable.lookup (pyLowerStr (pyStripStr s)) = some true
      simp only [trueTokens, List.mem_cons, List.not_mem_nil, or_false] at h
      rcases h with h | h | h | h | h | h <;> rw [h] <;> decide
    · intro h
      show boolTable.lookup (pyLowerStr (pyStripStr s)) = some false
      simp only [falseTokens, List.mem_cons, List.not_mem_nil, or_false] at h
      rcases h with h | h | h | h | h | h | h <;> rw [h] <;> decide
    · intro h1 h2
      show boolTable.lookup (pyLowerStr (pyStripStr s)) = none
      rw [List.lookup_eq_none_iff]
      intro p hp
      simp only [trueTokens, List.mem_cons, List.not_mem_nil, or_false,
        not_or] at h1
      simp only [falseTokens, List.mem_cons, List.not_mem_nil, or_false,
        not_or] at h2
      simp only [boolTable, List.mem_cons, List.not_mem_nil, or_false] at hp
      rcases hp with hp | hp | hp | hp | hp | hp | hp | hp | hp | hp | hp |
        hp | hp <;> subst hp <;> simp only [bne_iff_ne, ne_eq] <;> tauto
  · decide

theorem c5_boolean_truth_table_witness :
    castBoolCell (some "talvez") = none :=
  (c5_boolean_truth_table.1 "talvez").2.2 (by decide) (by decide)

/-! ## Theorems: `_apply_schema` column invariants (C1) -/

theorem castColumn_replicate_none (ty : String) (n : Nat) :
    castColumn ty (List.replicate n none) = .ok (List.replicate n none) := by
  have hnum : (List.replicate n (none : Option String)).map toNumericCell
      = List.replicate n none := by
    rw [List.map_replicate, show toNumericCell none = none from by decide]
  have hall : ((List.replicate n (none : Option String)).map
      toNumericCell).all
      (fun q => q.elim true (fun v => decide (v.den = 1))) = true := by
    rw [hnum]
    apply List.all_eq_true.mpr
    intro x hx
    rw [List.eq_of_mem_replicate hx]
    rfl
  simp only [castColumn]
  split_ifs with h1 h2 h3 h4 h5 h6
  · rw [List.map_replicate]; rfl
  · rw [List.map_replicate]; rfl
  · rw [hnum, List.map_replicate]; rfl
  · rw [hnum, List.map_replicate]; rfl
  · rw [List.map_replicate]; rfl
  · rw [List.map_replicate]; rfl
  · rw [List.map_replicate]; rfl

theorem findCol_eq_of_mem {α : Type} {cols : List (String × List α)}
    {k : String} {v : List α} (hmem : (k, v) ∈ cols)
    (hval : ∀ p ∈ cols, p.1 = k → p.2 = v) : findCol cols k = some v := by
  unfold findCol
  cases hf : cols.find? (fun p => p.1 == k) with
  | none =>
    rw [List.find?_eq_none] at hf
    exact absurd (by simp) (hf (k, v) hmem)
  | some pr =>
    have hm := List.mem_of_find?_eq_some hf
    have hp := List.find?_some hf
    rw [beq_iff_eq] at hp
    show some pr.2 = some v
    rw [hval pr hm hp]

theorem findCol_eq_none {α : Type} {cols : List (String × List α)}
    {k : String} (h : ∀ p ∈ cols, p.1 ≠ k) : findCol cols k = none := by
  unfold findCol
  rw [List.find?_eq_none.mpr (fun p hp => by simp [h p hp])]
  rfl

theorem not_key_of_findCol_none {α : Type} {cols : List (String × List α)}
    {k : String} (h : findCol cols k = none) : ∀ p ∈ cols, p.1 ≠ k := by
  unfold findCol at h
  cases hf : cols.find? (fun p => p.1 == k) with
  | some pr =>
    rw [hf] at h
    exact Option.noConfusion h
  | none =>
    rw [List.find?_eq_none] at hf
    intro p hp hc
    exact hf p hp (by simp [hc])

theorem findCol_addMissing_of_missing {df : RawFrame}
    {schema : List (String × String)} {kv : String × String}
    (hkv : kv ∈ schema) (hmiss : findCol df.cols kv.1 = none) :
    findCol (addMissingCols df schema).cols kv.1
      = some (List.replicate df.nrows (none : Option String)) := by
  apply findCol_eq_of_mem
  · unfold addMissingCols
    dsimp only
    apply List.mem_append_right
    exact List.mem_map.mpr ⟨kv, List.mem_filter.mpr ⟨hkv, by simp [hmiss]⟩,
      rfl⟩
  · intro p hp hpk
    unfold addMissingCols at hp
    dsimp only at hp
    rcases List.mem_append.mp hp with h1 | h1
    · exact absurd hpk (not_key_of_findCol_none hmiss p h1)
    · rcases List.mem_map.mp h1 with ⟨kv', _, he⟩
      rw [← he]

theorem findCol_selectCols_of_some {df : RawFrame} {keys : List String}
    {k : String} {v : List (Option String)} (hk : k ∈ keys)
    (hv : findCol df.cols k = some v) :
    findCol (selectCols df keys).cols k = some v := by
  apply findCol_eq_of_mem
  · unfold selectCols
    dsimp only
    exact List.mem_filterMap.mpr ⟨k, hk, by rw [hv]; rfl⟩
  · intro p hp hpk
    unfold selectCols at hp
    dsimp only at hp
    rcases List.mem_filterMap.mp hp with ⟨k', _, he⟩
    cases hfv : findCol df.cols k' with
    | none =>
      rw [hfv] at he
      exact Option.noConfusion he
    | some v' =>
      rw [hfv] at he
      have hpe : p = (k', v') := (Option.some.inj he).symm
      subst hpe
      have hk'k : k' = k := hpk
      rw [hk'k] at hfv
      rw [hv] at hfv
      exact (Option.some.inj hfv).symm

theorem castCols_ok_names (df : RawFrame) :
    ∀ (schema : List (String × String)) (cols),
      castCols df schema = .ok cols →
        cols.map Prod.fst = schema.map Prod.fst
  | [], cols => by
    intro h
    simp only [castCols] at h
    have : ([] : List (String × List (Option TValue))) = cols :=
      Except.ok.inj h
    subst this
    rfl
  | kv :: rest, cols => by
    intro h
    rw [castCols] at h
    cases hc : castColumn kv.2 ((findCol df.cols kv.1).getD
        (List.replicate df.nrows none)) with
    | error e =>
      rw [hc] at h
      exact Except.noConfusion h
    | ok c =>
      rw [hc] at h
      cases hr : castCols df rest with
      | error e =>
        rw [hr] at h
        exact Except.noConfusion h
      | ok others =>
        rw [hr] at h
        have : (kv.1, c) :: others = cols := Except.ok.inj h
        subst this
        simp only [List.map_cons]
        rw [castCols_ok_names df rest others hr]

theorem castCols_ok_mem (df : RawFrame) :
    ∀ (schema : List (String × String)) (cols),
      castCols df schema = .ok cols → (schema.map Prod.fst).Nodup →
        ∀ kv ∈ schema, ∃ c,
          castColumn kv.2 ((findCol df.cols kv.1).getD
              (List.replicate df.nrows none)) = .ok c ∧
            findCol cols kv.1 = some c
  | [], cols => by
    intro _ _ kv hkv
    exact absurd hkv (List.not_mem_nil kv)
  | kv0 :: rest, cols => by
    intro h hnd kv hkv
    rw [castCols] at h
    cases hc : castColumn kv0.2 ((findCol df.cols kv0.1).getD
        (List.replicate df.nrows none)) with
    | error e =>
      rw [hc] at h
      exact Except.noConfusion h
    | ok c0 =>
      rw [hc] at h
      cases hr : castCols df rest with
      | error e =>
        rw [hr] at h
        exact Except.noConfusion h
      | ok others =>
        rw [hr] at h
        have hcols : (kv0.1, c0) :: others = cols := Except.ok.inj h
        subst hcols
        rcases List.mem_cons.mp hkv with rfl | hmem
        · refine ⟨c0, hc, ?_⟩
          unfold findCol
          simp
        · obtain ⟨c, hcast, hfind⟩ := castCols_ok_mem df rest others hr
            (List.nodup_cons.mp (by simpa using hnd)).2 kv hmem
          refine ⟨c, hcast, ?_⟩
          have hne : kv.1 ≠ kv0.1 := by
            intro he
            have hm : kv.1 ∈ rest.map Prod.fst := List.mem_map_of_mem _ hmem
            rw [he] at hm
            exact (List.nodup_cons.mp (by simpa using hnd)).1 hm
          unfold findCol
          rw [List.find?_cons_of_neg _ (by simp [Ne.symm hne])]
          exact hfind

/-- C1 counterexample: `_apply_schema` does not return a table for every
input — on an integer column whose cell `"1,5"` parses to the fractional
value `1.5`, pandas' nullable `Int64` cast raises, so the call aborts with an
exception and no table (with the schema's column list) is produced. -/
theorem c1_counterexample :
    applySchema ⟨1, [("A", [some "1,5"])]⟩ [("A", "int")]
      = .error "cannot safely cast non-equivalent float64 to int64" := by
  decide

/-- C1 (amended): whenever `_apply_schema` returns a table — which it does
except when an integer column receives a parseable non-integral value — the
table's column labels are exactly the schema's ordered column list; every
schema column missing from the input is present with every cell null; and
every input column not named in the schema is absent from the result. -/
theorem c1_applySchema_columns (df : RawFrame)
    (schema : List (String × String)) (out : TypedFrame)
    (hnd : (schema.map Prod.fst).Nodup)
    (h : applySchema df schema = .ok out) :
    out.cols.map Prod.fst = schema.map Prod.fst ∧
    (∀ kv ∈ schema, findCol df.cols kv.1 = none →
      findCol out.cols kv.1
        = some (List.replicate df.nrows (none : Option TValue))) ∧
    (∀ name, name ∉ schema.map Prod.fst → findCol out.cols name = none) := by
  unfold applySchema at h
  cases hcc : castCols (selectCols (addMissingCols df schema)
      (schema.map Prod.fst)) schema with
  | error e =>
    rw [hcc] at h
    exact Except.noConfusion h
  | ok cols =>
    rw [hcc] at h
    have hout : ({ nrows := df.nrows, cols := cols } : TypedFrame) = out :=
      Except.ok.inj h
    subst hout
    have hnames := castCols_ok_names _ schema cols hcc
    refine ⟨hnames, ?_, ?_⟩
    · intro kv hkv hmiss
      have hA := findCol_addMissing_of_missing hkv hmiss
      have hB := findCol_selectCols_of_some (List.mem_map_of_mem _ hkv) hA
      obtain ⟨c, hcast, hfind⟩ := castCols_ok_mem _ schema cols hcc hnd kv hkv
      rw [hB] at hcast
      simp only [Option.getD_some] at hcast
      rw [castColumn_replicate_none kv.2 df.nrows] at hcast
      have : List.replicate df.nrows (none : Option TValue) = c :=
        Except.ok.inj hcast
      rw [← this] at hfind
      exact hfind
    · intro name hni
      apply findCol_eq_none
      intro p hp hc
      have hm : p.1 ∈ cols.map Prod.fst := List.mem_map_of_mem _ hp
      rw [hnames, hc] at hm
      exact hni hm

theorem c1_applySchema_columns_witness :
    (({ nrows := 1, cols := [("A", [(none : Option TValue)])] } :
        TypedFrame).cols.map Prod.fst
      = ([("A", "string")] : List (String × String)).map Prod.fst) ∧
    (∀ kv ∈ ([("A", "string")] : List (String × String)),
      findCol ({ nrows := 1, cols := [("B", [some "x"])] } : RawFrame).cols
          kv.1 = none →
        findCol ({ nrows := 1, cols := [("A", [(none : Option TValue)])] } :
            TypedFrame).cols kv.1
          = some (List.replicate 1 (none : Option TValue))) ∧
    (∀ name, name ∉ ([("A", "string")] : List (String × String)).map
        Prod.fst →
      findCol ({ nrows := 1, cols := [("A", [(none : Option TValue)])] } :
          TypedFrame).cols name = none) :=
  c1_applySchema_columns ⟨1, [("B", [some "x"])]⟩ [("A", "string")]
    ⟨1, [("A", [none])]⟩ (by decide) (by decide)

/-! ## Theorems: JSON-Lines detection (C4) -/

/-- C4 counterexample: a five-line file consisting entirely of JSON objects
is, per the claim, detected as JSON-Lines (5 lines sampled, 100% object
delimited), but `_is_ndjson` returns false — reading 20 lines with `next`
raises on the shorter file and the handler returns false. -/
theorem c4_counterexample :
    specIsNdjson (List.replicate 5 "\x7ba\x7d") = true ∧
      isNdjson (List.replicate 5 "\x7ba\x7d") = false :=
  ⟨by decide, by decide⟩

/-- C4 (amended): `_is_ndjson` never detects a file with fewer than 20 lines
(the 20-line read fails and is treated as not-NDJSON); on a file with at
least 20 lines it returns true exactly when, among the first 20 lines, at
least 3 are non-blank and at least 60% of the non-blank ones begin with an
opening and end with a closing object delimiter — the claim's sampling
formula applied to the first 20 lines. -/
theorem c4_isNdjson_eq (fileLines : List String) :
    isNdjson fileLines
      = (decide (20 ≤ fileLines.length) &&
          specIsNdjson (fileLines.take 20)) := by
  simp only [isNdjson, specIsNdjson]
  by_cases h : fileLines.length < 20
  · rw [if_pos h, decide_eq_false (by omega)]
    rfl
  · rw [if_neg h,
      decide_eq_true (show 20 ≤ fileLines.length by omega), Bool.true_and,
      List.take_of_length_le ((List.length_filter_le _ _).trans
        (by rw [List.length_map]; exact List.length_take_le 20 fileLines))]

/-! ## Theorems: constructor logger validation (C10) -/

theorem checkLoggerInit_compute (lg : PyObj) :
    checkLoggerInit (some lg) =
      (if lg.attrs.contains "info" = false then
        .error (.typeError ("logger não possui método necessário: "
          ++ "info"))
      else if lg.attrs.contains "warning" = false then
        .error (.typeError ("logger não possui método necessário: "
          ++ "warning"))
      else if lg.attrs.contains "error" = false then
        .error (.typeError ("logger não possui método necessário: "
          ++ "error"))
      else .ok lg) := by
  simp only [checkLoggerInit]
  by_cases h1 : "info" ∈ lg.attrs
  · by_cases h2 : "warning" ∈ lg.attrs
    · by_cases h3 : "error" ∈ lg.attrs
      · rw [List.find?_cons_of_neg _ (by simp [h1]),
          List.find?_cons_of_neg _ (by simp [h2]),
          List.find?_cons_of_neg _ (by simp [h3]),
          if_neg (by simp [h1]), if_neg (by simp [h2]), if_neg (by simp [h3])]
        rfl
      · rw [List.find?_cons_of_neg _ (by simp [h1]),
          List.find?_cons_of_neg _ (by simp [h2]),
          List.find?_cons_of_pos _ (by simp [h3]),
          if_neg (by simp [h1]), if_neg (by simp [h2]),
          if_pos (by simpa using h3)]
    · rw [List.find?_cons_of_neg _ (by simp [h1]),
        List.find?_cons_of_pos _ (by simp [h2]),
        if_neg (by simp [h1]), if_pos (by simpa using h2)]
  · rw [List.find?_cons_of_pos _ (by simp [h1]), if_pos (by simpa using h1)]

/-- C10: constructing a `DataFileReader` fails immediately on an unusable
logger — `None` raises `ValueError`, an object missing one of `info`,
`warning` or `error` raises `TypeError`; a successfully constructed reader
therefore holds a logger exposing all three methods. -/
theorem c10_logger_validation :
    checkLoggerInit none
        = .error (.valueError "logger é obrigatório para DataFileReader") ∧
    (∀ lg : PyObj,
      (¬(lg.attrs.contains "info" = true ∧
          lg.attrs.contains "warning" = true ∧
          lg.attrs.contains "error" = true) →
        ∃ m, checkLoggerInit (some lg)
          = .error (.typeError ("logger não possui método necessário: "
              ++ m))) ∧
      (∀ res, checkLoggerInit (some lg) = .ok res →
        res = lg ∧ lg.attrs.contains "info" = true ∧
          lg.attrs.contains "warning" = true ∧
          lg.attrs.contains "error" = true)) := by
  refine ⟨rfl, ?_⟩
  intro lg
  constructor
  · intro h
    rw [checkLoggerInit_compute]
    by_cases h1 : "info" ∈ lg.attrs
    · by_cases h2 : "warning" ∈ lg.attrs
      · by_cases h3 : "error" ∈ lg.attrs
        · exact absurd ⟨by simpa using h1, by simpa using h2,
            by simpa using h3⟩ h
        · refine ⟨"error", ?_⟩
          rw [if_neg (by simp [h1]), if_neg (by simp [h2]),
            if_pos (by simpa using h3)]
      · refine ⟨"warning", ?_⟩
        rw [if_neg (by simp [h1]), if_pos (by simpa using h2)]
    · refine ⟨"info", ?_⟩
      rw [if_pos (by simpa using h1)]
  · intro res h
    rw [checkLoggerInit_compute] at h
    by_cases h1 : "info" ∈ lg.attrs
    · by_cases h2 : "warning" ∈ lg.attrs
      · by_cases h3 : "error" ∈ lg.attrs
        · rw [if_neg (by simp [h1]), if_neg (by simp [h2]),
            if_neg (by simp [h3])] at h
          exact ⟨(Except.ok.inj h).symm, by simpa using h1,
            by simpa using h2, by simpa using h3⟩
        · rw [if_neg (by simp [h1]), if_neg (by simp [h2]),
            if_pos (by simpa using h3)] at h
          exact Except.noConfusion h
      · rw [if_neg (by simp [h1]), if_pos (by simpa using h2)] at h
        exact Except.noConfusion h
    · rw [if_pos (by simpa using h1)] at h
      exact Except.noConfusion h

theorem c10_logger_validation_witness :
    (∃ m, checkLoggerInit (some ⟨["info"]⟩)
      = .error (.typeError ("logger não possui método necessário: "
          ++ m))) ∧
    ((⟨["info", "warning", "error"]⟩ : PyObj)
        = ⟨["info", "warning", "error"]⟩ ∧
      List.contains ["info", "warning", "error"] "info" = true ∧
      List.contains ["info", "warning", "error"] "warning" = true ∧
      List.contains ["info", "warning", "error"] "error" = true) :=
  ⟨(c10_logger_validation.2 ⟨["info"]⟩).1 (by decide),
    (c10_logger_validation.2 ⟨["info", "warning", "error"]⟩).2
      ⟨["info", "warning", "error"]⟩ (by decide)⟩

/-! ## Theorems: folder batch assembly (C7, C8, C9) -/

/-- C7: `read_folder` distinguishes two error conditions — an entirely
file-less folder fails with the no-files-found error before anything else,
and a folder whose files all miss the configured pattern set fails with the
no-eligible-files error; in both cases an error is returned and no partial
table. -/
theorem c7_folder_error_conditions (entries : List Entry) (pattern : String)
    (patterns : Option (List String)) (normalizeNames : Bool)
    (schemaMap : List (String × String)) (ordered : Option (List String))
    (filenameColumn : String) :
    ((entries.filter (fun e => e.isFile)).isEmpty = true →
      readFolder entries pattern patterns normalizeNames schemaMap ordered
        filenameColumn = .error .noFilesFound) ∧
    ((entries.filter (fun e => e.isFile)).isEmpty = false → schemaMap ≠ [] →
      ((entries.filter (fun e => e.isFile)).filter
          (entryMatches normalizeNames (folderPats pattern patterns))).isEmpty
        = true →
      readFolder entries pattern patterns normalizeNames schemaMap ordered
        filenameColumn = .error .noEligibleFiles) := by
  constructor
  · intro h
    simp only [readFolder]
    rw [if_pos h]
  · intro h hs hsel
    simp only [readFolder]
    rw [if_neg (by simp [h]), if_neg (by simp [List.isEmpty_iff, hs]),
      if_pos hsel]

theorem c7_folder_error_conditions_witness :
    readFolder [] "*" none false [("A", "string")] none "NM_SOURCE_FILE"
        = .error .noFilesFound ∧
    readFolder [⟨"a.pdf", true, .ok ⟨0, []⟩⟩] "*.csv" none false
        [("A", "string")] none "NM_SOURCE_FILE"
      = .error .noEligibleFiles :=
  ⟨(c7_folder_error_conditions [] "*" none false [("A", "string")] none
      "NM_SOURCE_FILE").1 (by decide),
    (c7_folder_error_conditions [⟨"a.pdf", true, .ok ⟨0, []⟩⟩] "*.csv" none
      false [("A", "string")] none "NM_SOURCE_FILE").2 (by decide)
      (by decide) (by decide)⟩

theorem processFiles_ok (ordered : Option (List String)) (fc : String) :
    ∀ l : List Entry,
      (∀ e ∈ l, kindFromExt (fileExt e.name) ≠ none →
        e.readResult.isOk = true) →
      ∃ frames, processFiles ordered fc l = .ok frames ∧
        (frames.isEmpty = true ↔
          l.filter (fun e => (kindFromExt (fileExt e.name)).isSome) = [])
  | [] => by
    intro _
    exact ⟨[], rfl, by simp⟩
  | e :: rest => by
    intro h
    obtain ⟨frames, hp, hiff⟩ := processFiles_ok ordered fc rest
      (fun e' he' => h e' (List.mem_cons_of_mem _ he'))
    cases hk : kindFromExt (fileExt e.name) with
    | none =>
      refine ⟨frames, ?_, ?_⟩
      · rw [processFiles, hk]
        exact hp
      · rw [hiff]
        simp [List.filter_cons, hk]
    | some k =>
      have hok := h e (List.mem_cons_self _ _) (by simp [hk])
      cases hre : e.readResult with
      | error msg =>
        rw [hre] at hok
        simp [Except.isOk, Except.toBool] at hok
      | ok df =>
        refine ⟨appendFilenameCol (ensureOrdered df ordered) fc e.name ::
          frames, ?_, ?_⟩
        · rw [processFiles, hk, hre, hp]
        · simp [List.filter_cons, hk]

/-- C8 counterexample: a selected file with a recognized extension whose read
fails is not skipped — the exception aborts the whole batch even though
another file was read successfully, so no table is returned. -/
theorem c8_counterexample :
    readFolder
        [⟨"a.csv", true, .ok ⟨1, [("A", [some (TValue.str "x")])]⟩⟩,
         ⟨"b.json", true, .error "Expecting value: line 1 column 1"⟩]
        "*" none false [("A", "string")] (some ["A"]) "NM_SOURCE_FILE"
      = .error (.readFailure "Expecting value: line 1 column 1") := by
  decide

/-- C8 (amended): during batch assembly every selected file whose extension
is unrecognized is skipped (only files of recognized kind contribute), and —
provided every selected file of recognized kind reads successfully — the
batch succeeds exactly when at least one such file exists; when every
selected file is skipped, `read_folder` fails with the no-readable-files
error.  A selected file of recognized kind whose read fails is not skipped:
its exception aborts the batch (see the counterexample). -/
theorem c8_unsupported_skipped (entries : List Entry) (pattern : String)
    (patterns : Option (List String)) (normalizeNames : Bool)
    (schemaMap : List (String × String)) (ordered : Option (List String))
    (filenameColumn : String) (hs : schemaMap ≠ [])
    (hsel : ((entries.filter (fun e => e.isFile)).filter
        (entryMatches normalizeNames (folderPats pattern patterns))).isEmpty
      = false)
    (hok : ∀ e ∈ List.insertionSort entryLE
        ((entries.filter (fun e => e.isFile)).filter
          (entryMatches normalizeNames (folderPats pattern patterns))),
      kindFromExt (fileExt e.name) ≠ none → e.readResult.isOk = true) :
    ((List.insertionSort entryLE ((entries.filter (fun e => e.isFile)).filter
          (entryMatches normalizeNames (folderPats pattern patterns)))).filter
        (fun e => (kindFromExt (fileExt e.name)).isSome) = [] →
      readFolder entries pattern patterns normalizeNames schemaMap ordered
        filenameColumn = .error .noReadableFiles) ∧
    ((List.insertionSort entryLE ((entries.filter (fun e => e.isFile)).filter
          (entryMatches normalizeNames (folderPats pattern patterns)))).filter
        (fun e => (kindFromExt (fileExt e.name)).isSome) ≠ [] →
      (readFolder entries pattern patterns normalizeNames schemaMap ordered
        filenameColumn).isOk = true) := by
  obtain ⟨frames, hp, hiff⟩ := processFiles_ok ordered filenameColumn _ hok
  have hfiles : (entries.filter (fun e => e.isFile)).isEmpty = false := by
    by_contra hc
    rw [Bool.not_eq_false, List.isEmpty_iff] at hc
    rw [hc] at hsel
    simp at hsel
  constructor
  · intro hnone
    simp only [readFolder]
    rw [if_neg (by intro hc; rw [hfiles] at hc; exact Bool.noConfusion hc),
      if_neg (fun hc => hs (List.isEmpty_iff.mp hc)),
      if_neg (by intro hc; rw [hsel] at hc; exact Bool.noConfusion hc), hp]
    show (if frames.isEmpty = true then
        Except.error FolderError.noReadableFiles
      else Except.ok (concatFrames frames))
      = Except.error FolderError.noReadableFiles
    rw [if_pos (hiff.mpr hnone)]
  · intro hne
    simp only [readFolder]
    rw [if_neg (by intro hc; rw [hfiles] at hc; exact Bool.noConfusion hc),
      if_neg (fun hc => hs (List.isEmpty_iff.mp hc)),
      if_neg (by intro hc; rw [hsel] at hc; exact Bool.noConfusion hc), hp]
    show ((if frames.isEmpty = true then
        Except.error FolderError.noReadableFiles
      else Except.ok (concatFrames frames)) :
        Except FolderError TypedFrame).isOk = true
    rw [if_neg (fun hc => hne (hiff.mp hc))]
    rfl

theorem c8_unsupported_skipped_witness :
    (readFolder
        [⟨"b.pdf", true, .ok ⟨1, [("A", [some (TValue.str "y")])]⟩⟩,
         ⟨"a.csv", true, .ok ⟨1, [("A", [some (TValue.str "x")])]⟩⟩]
        "*" none false [("A", "string")] (some ["A"])
        "NM_SOURCE_FILE").isOk = true :=
  (c8_unsupported_skipped
      [⟨"b.pdf", true, .ok ⟨1, [("A", [some (TValue.str "y")])]⟩⟩,
       ⟨"a.csv", true, .ok ⟨1, [("A", [some (TValue.str "x")])]⟩⟩]
      "*" none false [("A", "string")] (some ["A"]) "NM_SOURCE_FILE"
      (by decide) (by decide) (by decide)).2 (by decide)

theorem char_toNat_inj {a b : Char} (h : a.toNat = b.toNat) : a = b := by
  cases a
  cases b
  have hv := UInt32.toNat.inj h
  subst hv
  rfl

theorem charListLe_total : ∀ a b : List Char,
    charListLe a b = true ∨ charListLe b a = true
  | [], _ => Or.inl rfl
  | _ :: _, [] => Or.inr rfl
  | a :: as, b :: bs => by
    by_cases h1 : a.toNat < b.toNat
    · left
      rw [charListLe, if_pos h1]
    · by_cases h2 : b.toNat < a.toNat
      · right
        rw [charListLe, if_pos h2]
      · rcases charListLe_total as bs with h | h
        · left
          rw [charListLe, if_neg h1, if_neg h2]
          exact h
        · right
          rw [charListLe, if_neg h2, if_neg h1]
          exact h

theorem charListLe_trans : ∀ a b c : List Char, charListLe a b = true →
    charListLe b c = true → charListLe a c = true
  | [], _, _ => by
    intro _ _
    rfl
  | x :: xs, [], _ => by
    intro h _
    simp [charListLe] at h
  | x :: xs, y :: ys, [] => by
    intro _ h
    simp [charListLe] at h
  | x :: xs, y :: ys, z :: zs => by
    intro h1 h2
    rw [charListLe] at h1 h2 ⊢
    by_cases a1 : x.toNat < y.toNat
    · by_cases b1 : y.toNat < z.toNat
      · rw [if_pos (by omega)]
      · by_cases b2 : z.toNat < y.toNat
        · rw [if_neg b1, if_pos b2] at h2
          exact absurd h2 (by simp)
        · rw [if_pos (by omega)]
    · by_cases a2 : y.toNat < x.toNat
      · rw [if_pos a2] at h1
        rw [if_neg a1] at h1
        exact absurd h1 (by simp)
      · by_cases b1 : y.toNat < z.toNat
        · rw [if_pos (by omega)]
        · by_cases b2 : z.toNat < y.toNat
          · rw [if_neg b1, if_pos b2] at h2
            exact absurd h2 (by simp)
          · rw [if_neg a1, if_neg a2] at h1
            rw [if_neg b1, if_neg b2] at h2
            rw [if_neg (by omega), if_neg (by omega)]
            exact charListLe_trans xs ys zs h1 h2

theorem charListLe_antisymm : ∀ a b : List Char, charListLe a b = true →
    charListLe b a = true → a = b
  | [], [] => by
    intro _ _
    rfl
  | [], _ :: _ => by
    intro _ h
    simp [charListLe] at h
  | _ :: _, [] => by
    intro h _
    simp [charListLe] at h
  | a :: as, b :: bs => by
    intro h1 h2
    rw [charListLe] at h1 h2
    by_cases x1 : a.toNat < b.toNat
    · rw [if_pos x1] at h1
      rw [if_neg (by omega), if_pos x1] at h2
      exact absurd h2 (by simp)
    · by_cases x2 : b.toNat < a.toNat
      · rw [if_neg x1, if_pos x2] at h1
        exact absurd h1 (by simp)
      · rw [if_neg x1, if_neg x2] at h1
        rw [if_neg x2, if_neg x1] at h2
        rw [char_toNat_inj (show a.toNat = b.toNat by omega),
          charListLe_antisymm as bs h1 h2]

theorem string_toList_inj {s t : String} (h : s.toList = t.toList) :
    s = t := by
  cases s with
  | mk d1 =>
    cases t with
    | mk d2 => exact congrArg String.mk h

theorem entry_sort_eq {l1 l2 : List Entry} (hperm : l1.Perm l2)
    (hnd : l1.Pairwise (fun a b => a.name ≠ b.name)) :
    List.insertionSort entryLE l1 = List.insertionSort entryLE l2 := by
  haveI htot : IsTotal Entry entryLE :=
    ⟨fun a b => charListLe_total a.name.toList b.name.toList⟩
  haveI htrans : IsTrans Entry entryLE :=
    ⟨fun a b c => charListLe_trans a.name.toList b.name.toList
      c.name.toList⟩
  haveI hanti : IsAntisymm Entry
      (fun a b : Entry => entryLE a b ∧ a.name ≠ b.name) := by
    refine ⟨fun a b h1 h2 => ?_⟩
    have hn : a.name = b.name := string_toList_inj
      (charListLe_antisymm _ _ h1.1 h2.1)
    exact absurd hn h1.2
  have hsym : ∀ {x y : Entry}, x.name ≠ y.name → y.name ≠ x.name :=
    fun h he => h he.symm
  have hperm' : (List.insertionSort entryLE l1).Perm
      (List.insertionSort entryLE l2) :=
    (List.perm_insertionSort entryLE l1).trans
      (hperm.trans (List.perm_insertionSort entryLE l2).symm)
  have hnd1 : (List.insertionSort entryLE l1).Pairwise
      (fun a b => a.name ≠ b.name) :=
    ((List.perm_insertionSort entryLE l1).pairwise_iff hsym).mpr hnd
  have hnd2 : (List.insertionSort entryLE l2).Pairwise
      (fun a b => a.name ≠ b.name) :=
    (hperm'.pairwise_iff hsym).mp hnd1
  exact List.eq_of_perm_of_sorted hperm'
    ((List.sorted_insertionSort entryLE l1).and hnd1)
    ((List.sorted_insertionSort entryLE l2).and hnd2)

/-- C9: the table produced by `read_folder` is invariant under the
filesystem's enumeration order — for two enumerations of the same directory
contents (same entries, any order, file names distinct), `read_folder`
returns identical results, because the selected paths are sorted
lexicographically before any file is read. -/
theorem c9_enumeration_order_invariance (entries1 entries2 : List Entry)
    (pattern : String) (patterns : Option (List String))
    (normalizeNames : Bool) (schemaMap : List (String × String))
    (ordered : Option (List String)) (filenameColumn : String)
    (hperm : entries1.Perm entries2)
    (hnd : entries1.Pairwise (fun a b => a.name ≠ b.name)) :
    readFolder entries1 pattern patterns normalizeNames schemaMap ordered
        filenameColumn
      = readFolder entries2 pattern patterns normalizeNames schemaMap
        ordered filenameColumn := by
  have hpf : (entries1.filter (fun e => e.isFile)).Perm
      (entries2.filter (fun e => e.isFile)) := hperm.filter _
  have hps : ((entries1.filter (fun e => e.isFile)).filter
        (entryMatches normalizeNames (folderPats pattern patterns))).Perm
      ((entries2.filter (fun e => e.isFile)).filter
        (entryMatches normalizeNames (folderPats pattern patterns))) :=
    hpf.filter _
  have hnd1 : ((entries1.filter (fun e => e.isFile)).filter
      (entryMatches normalizeNames (folderPats pattern patterns))).Pairwise
      (fun a b => a.name ≠ b.name) :=
    hnd.sublist ((List.filter_sublist _).trans (List.filter_sublist _))
  have hsorted := entry_sort_eq hps hnd1
  simp only [readFolder]
  by_cases h1 : (entries1.filter (fun e => e.isFile)).isEmpty = true
  · have h2 : (entries2.filter (fun e => e.isFile)).isEmpty = true := by
      rw [List.isEmpty_iff] at h1 ⊢
      rw [h1] at hpf
      exact (hpf.symm).eq_nil
    rw [if_pos h1, if_pos h2]
  · have h2 : ¬(entries2.filter (fun e => e.isFile)).isEmpty = true := by
      intro hc
      rw [List.isEmpty_iff] at hc
      rw [hc] at hpf
      exact h1 (by rw [List.isEmpty_iff]; exact hpf.eq_nil)
    rw [if_neg h1, if_neg h2]
    by_cases hsch : schemaMap.isEmpty = true
    · rw [if_pos hsch, if_pos hsch]
    · rw [if_neg hsch, if_neg hsch]
      by_cases hs1 : ((entries1.filter (fun e => e.isFile)).filter
          (entryMatches normalizeNames (folderPats pattern patterns))).isEmpty
          = true
      · have hs2 : ((entries2.filter (fun e => e.isFile)).filter
            (entryMatches normalizeNames
              (folderPats pattern patterns))).isEmpty = true := by
          rw [List.isEmpty_iff] at hs1 ⊢
          rw [hs1] at hps
          exact (hps.symm).eq_nil
        rw [if_pos hs1, if_pos hs2]
      · have hs2 : ¬((entries2.filter (fun e => e.isFile)).filter
            (entryMatches normalizeNames
              (folderPats pattern patterns))).isEmpty = true := by
          intro hc
          rw [List.isEmpty_iff] at hc
          rw [hc] at hps
          exact hs1 (by rw [List.isEmpty_iff]; exact hps.eq_nil)
        rw [if_neg hs1, if_neg hs2, hsorted]

theorem c9_enumeration_order_invariance_witness :
    readFolder
        [⟨"a.csv", true, .ok ⟨1, [("A", [some (TValue.str "x")])]⟩⟩,
         ⟨"b.csv", true, .ok ⟨1, [("A", [some (TValue.str "y")])]⟩⟩]
        "*.csv" none false [("A", "string")] (some ["A"]) "NM_SOURCE_FILE"
      = readFolder
        [⟨"b.csv", true, .ok ⟨1, [("A", [some (TValue.str "y")])]⟩⟩,
         ⟨"a.csv", true, .ok ⟨1, [("A", [some (TValue.str "x")])]⟩⟩]
        "*.csv" none false [("A", "string")] (some ["A"]) "NM_SOURCE_FILE" :=
  c9_enumeration_order_invariance
    [⟨"a.csv", true, .ok ⟨1, [("A", [some (TValue.str "x")])]⟩⟩,
     ⟨"b.csv", true, .ok ⟨1, [("A", [some (TValue.str "y")])]⟩⟩]
    [⟨"b.csv", true, .ok ⟨1, [("A", [some (TValue.str "y")])]⟩⟩,
     ⟨"a.csv", true, .ok ⟨1, [("A", [some (TValue.str "x")])]⟩⟩]
    "*.csv" none false [("A", "string")] (some ["A"]) "NM_SOURCE_FILE"
    (by decide) (by decide)

end DFR
